import Mathlib

/-!
Verification development for the DCF-model merge service (src/main.py).

The embedding models the openpyxl workbook state that the service manipulates:
worksheets are sparse association lists of cells, merged ranges are rectangles,
and the worksheet-copy engine `copy_sheet` together with the orchestrator
`generate_output_file` and the HTTP handler `upload` are translated directly
from the source.  Fallible operations return `Except String`, mirroring Python
exceptions; the handler maps any exception to an HTTP 500 result, exactly as
the `except Exception` block in `upload` does.
-/

deriving instance DecidableEq for Except

namespace DCFMerge

/-- A 1-based (row, column) cell position. -/
structure CellRC where
  row : Nat
  col : Nat
deriving DecidableEq, Repr

/-- A cell's content: either a literal (whose constructor records the original
type, so copying the value preserves the type) or a formula stored as its
source text.  With `data_only=False` (src/main.py line 116 and 185), openpyxl
exposes a formula cell's `.value` as the formula text, never a cached result. -/
inductive CellValue where
  | empty
  | str (s : String)
  | num (n : Int)
  | date (d : Nat)
  | boolean (b : Bool)
  | formula (t : String)
deriving DecidableEq, Repr

/-- The style bundle copied field by field in src/main.py lines 167-173.
The individual components are opaque identifiers; `copy` in Python produces a
value copy, which in this purely functional embedding is plain equality. -/
structure Style where
  font : Nat
  border : Nat
  fill : Nat
  numberFormat : String
  protection : Nat
  alignment : Nat
deriving DecidableEq, Repr

/-- A cell as iterated by `iter_rows`: value plus optional style, hyperlink and
comment (src/main.py lines 166-177 copy all of these onto the fresh cell). -/
structure Cell where
  value : CellValue
  style : Option Style
  hyperlink : Option String
  comment : Option String
deriving DecidableEq, Repr

/-- A merged rectangular range; `anchor` is its top-left cell. -/
structure MergedRange where
  minRow : Nat
  minCol : Nat
  maxRow : Nat
  maxCol : Nat
deriving DecidableEq, Repr

def MergedRange.containsCell (R : MergedRange) (p : CellRC) : Bool :=
  decide (R.minRow ≤ p.row) && decide (p.row ≤ R.maxRow) &&
  decide (R.minCol ≤ p.col) && decide (p.col ≤ R.maxCol)

def MergedRange.anchor (R : MergedRange) : CellRC :=
  ⟨R.minRow, R.minCol⟩

/-- Column dimension record (src/main.py lines 133-140). -/
structure ColDim where
  width : Option Nat
  hidden : Bool
  outlineLevel : Nat
  style : Option Nat
deriving DecidableEq, Repr

/-- Row dimension record (src/main.py lines 142-148). -/
structure RowDim where
  height : Option Nat
  hidden : Bool
  outlineLevel : Nat
  style : Option Nat
deriving DecidableEq, Repr

/-- A worksheet: sparse cell grid plus merged ranges, dimensions and the
optional attributes that `copy_sheet` touches.  Conditional-formatting rules
are carried as opaque identifiers so that we can observe whether `copy_sheet`
transfers them (it does not: no line of src/main.py reads
`conditional_formatting`). -/
structure Worksheet where
  cells : List (CellRC × Cell)
  mergedRanges : List MergedRange
  colDims : List (String × ColDim)
  rowDims : List (Nat × RowDim)
  freezePanes : Option String
  conditionalFormatting : List Nat
  pageSetup : Nat
  pageMargins : Nat
  printOptions : Nat
deriving DecidableEq, Repr

/-- The worksheet produced by `create_sheet` (src/main.py line 131): empty grid,
no merges, default attribute objects. -/
def emptySheet : Worksheet :=
  { cells := []
    mergedRanges := []
    colDims := []
    rowDims := []
    freezePanes := none
    conditionalFormatting := []
    pageSetup := 0
    pageMargins := 0
    printOptions := 0 }

/-- A position is a merged-cell placeholder of a sheet when some merged range
of that sheet contains it at a non-anchor position.  openpyxl materialises
exactly these positions as `MergedCell` objects, which are read-only. -/
def placeholderIn (ranges : List MergedRange) (p : CellRC) : Bool :=
  ranges.any (fun R => R.containsCell p && !(decide (p = R.anchor)))

def isMergedPlaceholder (ws : Worksheet) (p : CellRC) : Bool :=
  placeholderIn ws.mergedRanges p

/-- Assign a cell at a position: replace the existing entry for that position
or append a fresh one, mirroring `target_sheet.cell(row=..., column=...)`
followed by attribute assignment (src/main.py line 165). -/
def setCellList : List (CellRC × Cell) → CellRC → Cell → List (CellRC × Cell)
  | [], p, c => [(p, c)]
  | (q, d) :: rest, p, c =>
    if q = p then (p, c) :: rest else (q, d) :: setCellList rest p c

/-- Look up the cell stored at a position. -/
def lookupCell (cells : List (CellRC × Cell)) (p : CellRC) : Option Cell :=
  (cells.find? (fun e => decide (e.1 = p))).map Prod.snd

def getCell (ws : Worksheet) (p : CellRC) : Option Cell :=
  lookupCell ws.cells p

/-- Writing through a `MergedCell` placeholder raises in openpyxl; every other
write succeeds.  The guard consults the destination sheet's own merge table,
as openpyxl does. -/
def writeCell (ws : Worksheet) (p : CellRC) (c : Cell) : Except String Worksheet :=
  if isMergedPlaceholder ws p then
    Except.error "AttributeError: MergedCell value is read-only"
  else
    Except.ok { ws with cells := setCellList ws.cells p c }

/-- The cell-copy loop of src/main.py lines 155-177: iterate the source cells;
skip those that are `MergedCell` placeholders of the source sheet (lines
163-164); write every other cell into the target at the same position. -/
def copyCells (source : Worksheet) : Worksheet → List (CellRC × Cell) → Except String Worksheet
  | t, [] => Except.ok t
  | t, (p, c) :: rest =>
    if isMergedPlaceholder source p then
      copyCells source t rest
    else
      match writeCell t p c with
      | Except.error e => Except.error e
      | Except.ok t2 => copyCells source t2 rest

/-- A workbook: an ordered list of named sheets. -/
structure Workbook where
  sheets : List (String × Worksheet)
deriving DecidableEq, Repr

def Workbook.sheetnames (wb : Workbook) : List String :=
  wb.sheets.map Prod.fst

/-- `wb[name]`, as an option: the first sheet carrying the name. -/
def getSheet (wb : Workbook) (name : String) : Option Worksheet :=
  (wb.sheets.find? (fun e => decide (e.1 = name))).map Prod.snd

/-- The worksheet-copy engine, src/main.py lines 124-182, translated step by
step and in the source's order: remove a colliding sheet (127-129), create the
target (131), clone column and row dimensions (132-148), freeze panes (150),
declare every merged range of the source in the target BEFORE any cell is
written (152-153), run the cell loop (155-177), then clone page setup, margins
and print options (180-182).  Nothing in the function reads or writes
conditional formatting, and no step is wrapped in an exception handler. -/
def copy_sheet (wb : Workbook) (source : Worksheet) (targetTitle : String) :
    Except String Workbook :=
  let base : Workbook :=
    if wb.sheetnames.contains targetTitle then
      { sheets := wb.sheets.filter (fun e => !(decide (e.1 = targetTitle))) }
    else wb
  let t3 : Worksheet :=
    { cells := []                                -- create_sheet, line 131
      colDims := source.colDims                  -- lines 132-140
      rowDims := source.rowDims                  -- lines 142-148
      freezePanes := source.freezePanes          -- line 150
      mergedRanges := source.mergedRanges        -- lines 152-153, before the cell loop
      conditionalFormatting := []                -- never touched by copy_sheet
      pageSetup := 0
      pageMargins := 0
      printOptions := 0 }
  match copyCells source t3 source.cells with
  | Except.error e => Except.error e
  | Except.ok t4 =>
    let t5 := { t4 with
      pageSetup := source.pageSetup
      pageMargins := source.pageMargins
      printOptions := source.printOptions }
    Except.ok { sheets := base.sheets ++ [(targetTitle, t5)] }

/-- Copy each listed sheet of `src` into `wb` under the same name: the loop of
src/main.py lines 194-195 (`for sheet_name in to_copy: copy_sheet(...)`).
A name missing from `src` would raise a `KeyError` in Python. -/
def copyNamed (wb : Workbook) (src : Workbook) : List String → Except String Workbook
  | [] => Except.ok wb
  | name :: rest =>
    match getSheet src name with
    | none => Except.error "KeyError"
    | some s =>
      match copy_sheet wb s name with
      | Except.error e => Except.error e
      | Except.ok wb2 => copyNamed wb2 src rest

/-- The merge orchestrator, src/main.py lines 90-204.  `template` is the
workbook loaded from the packaged "DCF Model.xlsx" (line 116); the uploads are
given as parse results, an `Except.error` standing for the exception
`load_workbook` raises on bytes that are not a valid spreadsheet.  The
selection logic mirrors lines 187-200: always start from the template; copy
"Consensus" from the consensus workbook only if present (no error otherwise);
copy "Public Company" from the consensus workbook only when no profile upload
was supplied; finally, when a profile upload was supplied, parse it and copy
The `to_copy` list of src/main.py lines 187-192: "Consensus" when the
consensus workbook has it (and nothing, with no error, when it does not);
"Public Company" from the consensus workbook only when no profile upload was
supplied (`profile_path is None`, here `profileAbsent`). -/
def sheetsToCopy (consensus_wb : Workbook) (profileAbsent : Bool) : List String :=
  (if consensus_wb.sheetnames.contains "Consensus" then ["Consensus"] else []) ++
  (if profileAbsent && consensus_wb.sheetnames.contains "Public Company" then
    ["Public Company"] else [])

/-- The merge orchestrator, src/main.py lines 90-204, continued: build the
output from the template by copying each selected sheet, then handle the
profile upload (lines 197-200). -/
def generate_output_file (template : Workbook)
    (consensusData : Except String Workbook)
    (profileData : Option (Except String Workbook)) : Except String Workbook :=
  match consensusData with
  | Except.error e => Except.error e
  | Except.ok consensus_wb =>
    match copyNamed template consensus_wb (sheetsToCopy consensus_wb profileData.isNone) with
    | Except.error e => Except.error e
    | Except.ok wb1 =>
      match profileData with
      | none => Except.ok wb1
      | some (Except.error e) => Except.error e
      | some (Except.ok profile_wb) =>
        if profile_wb.sheetnames.contains "Public Company" then
          match getSheet profile_wb "Public Company" with
          | none => Except.error "KeyError"
          | some s => copy_sheet wb1 s "Public Company"
        else Except.ok wb1

/-- The observable outcome of one request at the HTTP boundary. -/
inductive HTTPResult where
  | ok (body : Workbook)
  | httpError (status : Nat) (detail : String)
deriving DecidableEq, Repr

/-- The `/upload` handler, src/main.py lines 38-87: run the merge; any
exception whatsoever is caught by `except Exception` and re-raised as
`HTTPException(status_code=500, detail=str(exc))`.  No other status code is
ever produced by the handler. -/
def upload (template : Workbook) (consensusData : Except String Workbook)
    (profileData : Option (Except String Workbook)) : HTTPResult :=
  match generate_output_file template consensusData profileData with
  | Except.ok out => HTTPResult.ok out
  | Except.error e => HTTPResult.httpError 500 e

/-- Temp staging paths the handler writes the uploads to (src/main.py lines
59-67).  The request-identity parameter is unused because the code names the
files with the fixed literals `temp_consensus.xlsx` and `temp_profile.xlsx`
in the process working directory. -/
def stagingPaths (_requestId : Nat) (profileProvided : Bool) : List String :=
  ["temp_consensus.xlsx"] ++ (if profileProvided then ["temp_profile.xlsx"] else [])

/-- Files left on disk after one request completes.  Created during the
request: the staged consensus upload (lines 59-61), the staged profile upload
when supplied (lines 63-67), and — only when execution reaches the save step —
the output `NamedTemporaryFile(delete=False)` at `outName` (lines 202-204).
The `finally` block (lines 82-87) removes exactly the two staged uploads on
every exit path; no line of src/main.py ever removes the output file. -/
def requestLeftoverFiles (reachedSave profileProvided : Bool) (outName : String) :
    List String :=
  let created :=
    ["temp_consensus.xlsx"]
    ++ (if profileProvided then ["temp_profile.xlsx"] else [])
    ++ (if reachedSave then [outName] else [])
  let removedInFinally := ["temp_consensus.xlsx", "temp_profile.xlsx"]
  created.filter (fun f => !(removedInFinally.contains f))

/-! Total evaluation of the copy engine.  `copy_sheet` can only fail at a
write through a placeholder, and the merge table of the target is installed
(equal to the source's) before the cell loop runs, so the engine in fact
never fails; `runCellsList`, `copiedSheet` and `copyResult` compute its
result directly, as proved below. -/

/-- The cell-copy loop as a total function on cell lists. -/
def runCellsList (source : Worksheet) :
    List (CellRC × Cell) → List (CellRC × Cell) → List (CellRC × Cell)
  | acc, [] => acc
  | acc, (p, c) :: rest =>
    if isMergedPlaceholder source p then runCellsList source acc rest
    else runCellsList source (setCellList acc p c) rest

/-- The target worksheet `copy_sheet` builds for a given source. -/
def copiedSheet (source : Worksheet) : Worksheet :=
  { cells := runCellsList source [] source.cells
    mergedRanges := source.mergedRanges
    colDims := source.colDims
    rowDims := source.rowDims
    freezePanes := source.freezePanes
    conditionalFormatting := []
    pageSetup := source.pageSetup
    pageMargins := source.pageMargins
    printOptions := source.printOptions }

/-- The workbook `copy_sheet` returns: any colliding sheet removed, the copied
sheet appended at the end. -/
def copyResult (wb : Workbook) (source : Worksheet) (title : String) : Workbook :=
  { sheets :=
      (if wb.sheetnames.contains title then
        wb.sheets.filter (fun e => !(decide (e.1 = title)))
      else wb.sheets)
      ++ [(title, copiedSheet source)] }

/-! Concrete fixtures used by the witness theorems. -/

def exStyle : Style :=
  { font := 1, border := 2, fill := 3, numberFormat := "0.00%", protection := 4, alignment := 5 }

def exCellA : Cell :=
  { value := CellValue.num 7, style := some exStyle, hyperlink := none, comment := none }

def exCellF : Cell :=
  { value := CellValue.formula "=SUM(A1:A3)", style := none, hyperlink := none, comment := none }

def exCellB : Cell :=
  { value := CellValue.empty, style := none, hyperlink := none, comment := none }

def exRange : MergedRange := { minRow := 2, minCol := 1, maxRow := 3, maxCol := 2 }

/-- Example source sheet: a numeric literal at (1,1), a formula at (1,2), and
a merged block over rows 2-3 and columns 1-2 whose anchor (2,1) holds a
literal while the remaining three positions are `MergedCell` placeholders;
it also carries one conditional-formatting rule. -/
def exSheet : Worksheet :=
  { cells :=
      [(⟨1, 1⟩, exCellA), (⟨1, 2⟩, exCellF), (⟨2, 1⟩, exCellA),
       (⟨2, 2⟩, exCellB), (⟨3, 1⟩, exCellB), (⟨3, 2⟩, exCellB)]
    mergedRanges := [exRange]
    colDims := [("A", { width := some 12, hidden := false, outlineLevel := 0, style := none })]
    rowDims := [(1, { height := some 20, hidden := false, outlineLevel := 0, style := none })]
    freezePanes := some "B2"
    conditionalFormatting := [1]
    pageSetup := 3
    pageMargins := 4
    printOptions := 5 }

/-- A second example sheet, used as a profile-supplied "Public Company". -/
def exSheetP : Worksheet :=
  { cells := [(⟨1, 1⟩, exCellF)]
    mergedRanges := []
    colDims := []
    rowDims := []
    freezePanes := none
    conditionalFormatting := []
    pageSetup := 0
    pageMargins := 0
    printOptions := 1 }

/-- Modelled from the spec: the packaged template workbook "DCF Model.xlsx"
(a deployment artifact, not present in the repository sources) supplies
exactly the "DCF Model" sheet.  The theorems that depend on the template only
assume its sheet-name list, matching this model. -/
def exTemplate : Workbook := { sheets := [("DCF Model", emptySheet)] }

def exConsensusWB : Workbook := { sheets := [("Consensus", exSheet)] }

def exConsensusPCWB : Workbook :=
  { sheets := [("Consensus", exSheet), ("Public Company", exSheetP)] }

def exProfileWB : Workbook := { sheets := [("Public Company", exSheetP)] }

/-- A consensus upload that has no "Consensus" sheet at all. -/
def exConsensusMissing : Workbook := { sheets := [("Data", emptySheet)] }

/-- Whether the run will place a "Public Company" sheet in the output: when a
profile upload is supplied only its own sheet list matters (src/main.py line
199); otherwise the consensus workbook is consulted (line 191). -/
def pcAvailable (consensus : Workbook) (profile : Option Workbook) : Bool :=
  match profile with
  | some pwb => pwb.sheetnames.contains "Public Company"
  | none => consensus.sheetnames.contains "Public Company"


lemma isMergedPlaceholder_of_ranges_eq {s t : Worksheet}
    (h : t.mergedRanges = s.mergedRanges) (p : CellRC) :
    isMergedPlaceholder t p = isMergedPlaceholder s p := by
  simp [isMergedPlaceholder, h]

lemma copyCells_eq_runCellsList (source : Worksheet) (cs : List (CellRC × Cell)) :
    ∀ t : Worksheet, t.mergedRanges = source.mergedRanges →
      copyCells source t cs = Except.ok { t with cells := runCellsList source t.cells cs } := by
  induction cs with
  | nil => intro t _; rfl
  | cons hd rest ih =>
    intro t ht
    obtain ⟨p, c⟩ := hd
    by_cases hp : isMergedPlaceholder source p = true
    · simp [copyCells, runCellsList, hp, ih t ht]
    · have hp' : isMergedPlaceholder source p = false := by
        simpa using hp
      have hguard : isMergedPlaceholder t p = false := by
        rw [isMergedPlaceholder_of_ranges_eq ht]; exact hp'
      have step := ih { t with cells := setCellList t.cells p c } ht
      simp [copyCells, runCellsList, hp', writeCell, hguard, step]

lemma copy_sheet_eq (wb : Workbook) (source : Worksheet) (title : String) :
    copy_sheet wb source title = Except.ok (copyResult wb source title) := by
  have h := copyCells_eq_runCellsList source source.cells
    { cells := [], colDims := source.colDims, rowDims := source.rowDims,
      freezePanes := source.freezePanes, mergedRanges := source.mergedRanges,
      conditionalFormatting := [], pageSetup := 0, pageMargins := 0,
      printOptions := 0 } rfl
  simp only [copy_sheet]
  rw [h]
  simp only [copyResult, copiedSheet]
  split <;> rfl

/-! Lemmas about cell assignment and lookup. -/

lemma lookupCell_setCellList_self (cells : List (CellRC × Cell)) (p : CellRC) (c : Cell) :
    lookupCell (setCellList cells p c) p = some c := by
  induction cells with
  | nil => simp [setCellList, lookupCell]
  | cons hd rest ih =>
    obtain ⟨q, d⟩ := hd
    by_cases hqp : q = p
    · subst hqp
      simp [setCellList, lookupCell]
    · simp only [setCellList, if_neg hqp, lookupCell] at ih ⊢
      rw [List.find?_cons_of_neg]
      · exact ih
      · simp [hqp]

lemma lookupCell_setCellList_other (cells : List (CellRC × Cell)) {p r : CellRC} (c : Cell)
    (h : r ≠ p) : lookupCell (setCellList cells p c) r = lookupCell cells r := by
  induction cells with
  | nil =>
    simp [setCellList, lookupCell, List.find?, Ne.symm h]
  | cons hd rest ih =>
    obtain ⟨q, d⟩ := hd
    by_cases hqp : q = p
    · subst hqp
      rw [setCellList, if_pos rfl]
      simp only [lookupCell]
      rw [List.find?_cons_of_neg _ (by simp [Ne.symm h]),
        List.find?_cons_of_neg _ (by simp [Ne.symm h])]
    · by_cases hqr : q = r
      · subst hqr
        simp [setCellList, if_neg hqp, lookupCell]
      · simp only [setCellList, if_neg hqp, lookupCell] at ih ⊢
        rw [List.find?_cons_of_neg, List.find?_cons_of_neg]
        · exact ih
        · simp [hqr]
        · simp [hqr]

lemma runCellsList_lookup_not_mem (source : Worksheet) (cs : List (CellRC × Cell)) :
    ∀ (acc : List (CellRC × Cell)) (p : CellRC), p ∉ cs.map Prod.fst →
      lookupCell (runCellsList source acc cs) p = lookupCell acc p := by
  induction cs with
  | nil => intro acc p _; rfl
  | cons hd rest ih =>
    intro acc p hp
    obtain ⟨q, d⟩ := hd
    have hqp : q ≠ p := by
      intro hqp
      exact hp (by simp [hqp])
    have hrest : p ∉ rest.map Prod.fst := by
      intro hmem
      exact hp (by simp [hmem])
    by_cases hph : isMergedPlaceholder source q = true
    · simp only [runCellsList, if_pos hph]
      exact ih acc p hrest
    · simp only [runCellsList, if_neg hph]
      rw [ih (setCellList acc q d) p hrest]
      exact lookupCell_setCellList_other acc d (Ne.symm hqp)

lemma runCellsList_lookup_mem (source : Worksheet) (cs : List (CellRC × Cell)) :
    ∀ (acc : List (CellRC × Cell)) (p : CellRC) (c : Cell),
      (cs.map Prod.fst).Nodup → (p, c) ∈ cs → isMergedPlaceholder source p = false →
      lookupCell (runCellsList source acc cs) p = some c := by
  induction cs with
  | nil => intro acc p c _ hmem _; cases hmem
  | cons hd rest ih =>
    intro acc p c hnd hmem hph
    obtain ⟨q, d⟩ := hd
    have hnd' : (q :: rest.map Prod.fst).Nodup := by simpa using hnd
    have hnd1 : q ∉ rest.map Prod.fst := (List.nodup_cons.mp hnd').1
    have hnd2 : (rest.map Prod.fst).Nodup := (List.nodup_cons.mp hnd').2
    rcases List.mem_cons.mp hmem with heq | hmem'
    · rw [Prod.mk.injEq] at heq
      obtain ⟨hpq, hcd⟩ := heq
      subst hpq
      subst hcd
      simp only [runCellsList]
      rw [if_neg (by simp [hph])]
      rw [runCellsList_lookup_not_mem source rest (setCellList acc p c) p hnd1]
      exact lookupCell_setCellList_self acc p c
    · by_cases hphq : isMergedPlaceholder source q = true
      · simp only [runCellsList, if_pos hphq]
        exact ih acc p c hnd2 hmem' hph
      · simp only [runCellsList, if_neg hphq]
        exact ih (setCellList acc q d) p c hnd2 hmem' hph

lemma runCellsList_lookup_placeholder (source : Worksheet) (cs : List (CellRC × Cell)) :
    ∀ (acc : List (CellRC × Cell)) (p : CellRC), isMergedPlaceholder source p = true →
      lookupCell (runCellsList source acc cs) p = lookupCell acc p := by
  induction cs with
  | nil => intro acc p _; rfl
  | cons hd rest ih =>
    intro acc p hph
    obtain ⟨q, d⟩ := hd
    by_cases hphq : isMergedPlaceholder source q = true
    · simp only [runCellsList, if_pos hphq]
      exact ih acc p hph
    · have hqp : q ≠ p := by
        intro h
        rw [h] at hphq
        exact hphq hph
      simp only [runCellsList, if_neg hphq]
      rw [ih (setCellList acc q d) p hph]
      exact lookupCell_setCellList_other acc d (Ne.symm hqp)

/-- Cells surviving into the copied sheet: every non-placeholder source cell
lands unchanged at its own position. -/
lemma getCell_copiedSheet_mem (source : Worksheet) {p : CellRC} {c : Cell}
    (hnd : (source.cells.map Prod.fst).Nodup) (hmem : (p, c) ∈ source.cells)
    (hph : isMergedPlaceholder source p = false) :
    getCell (copiedSheet source) p = some c :=
  runCellsList_lookup_mem source source.cells [] p c hnd hmem hph

/-- Placeholder positions are never written: the copied sheet holds no cell
there at all. -/
lemma getCell_copiedSheet_placeholder (source : Worksheet) {p : CellRC}
    (hph : isMergedPlaceholder source p = true) :
    getCell (copiedSheet source) p = none :=
  runCellsList_lookup_placeholder source source.cells [] p hph

/-! Lemmas about sheet lookup and the workbook produced by `copy_sheet`. -/

lemma find?_append_singleton (l : List (String × Worksheet)) (title : String) (t : Worksheet)
    (h : ∀ e ∈ l, e.1 ≠ title) :
    (l ++ [(title, t)]).find? (fun e => decide (e.1 = title)) = some (title, t) := by
  induction l with
  | nil => simp
  | cons hd rest ih =>
    rw [List.cons_append, List.find?_cons_of_neg _ (by simp [h hd (by simp)])]
    exact ih (fun e he => h e (by simp [he]))

lemma find?_filter_of_imp (l : List (String × Worksheet)) (p q : String × Worksheet → Bool)
    (h : ∀ e, p e = true → q e = true) : (l.filter q).find? p = l.find? p := by
  induction l with
  | nil => rfl
  | cons hd rest ih =>
    by_cases hp : p hd = true
    · rw [List.find?_cons_of_pos _ hp, List.filter_cons_of_pos (h hd hp),
        List.find?_cons_of_pos _ hp]
    · by_cases hq : q hd = true
      · rw [List.filter_cons_of_pos hq, List.find?_cons_of_neg _ (by simp [hp]),
          List.find?_cons_of_neg _ (by simp [hp])]
        exact ih
      · rw [List.filter_cons_of_neg (by simp [hq]), List.find?_cons_of_neg _ (by simp [hp])]
        exact ih

lemma contains_iff_mem_names {l : List String} {n : String} :
    l.contains n = true ↔ n ∈ l := by
  rw [List.contains_eq_any_beq, List.any_eq_true]
  constructor
  · rintro ⟨m, hm, hb⟩
    have hnm : n = m := by simpa using hb
    rwa [hnm]
  · intro h
    exact ⟨n, h, by simp⟩

lemma not_mem_of_not_contains {l : List String} {n : String}
    (h : ¬ l.contains n = true) : n ∉ l :=
  fun hmem => h (contains_iff_mem_names.mpr hmem)

lemma not_mem_of_contains_eq_false {l : List String} {n : String}
    (h : l.contains n = false) : n ∉ l :=
  not_mem_of_not_contains (by rw [h]; decide)

lemma getSheet_some_of_contains {wb : Workbook} {n : String}
    (h : wb.sheetnames.contains n = true) : ∃ s, getSheet wb n = some s := by
  have hmem : n ∈ wb.sheets.map Prod.fst := by
    simpa [Workbook.sheetnames] using contains_iff_mem_names.mp h
  obtain ⟨e, he, hfst⟩ := List.mem_map.mp hmem
  have hsome : (wb.sheets.find? (fun e => decide (e.1 = n))).isSome = true :=
    List.find?_isSome.mpr ⟨e, he, by simp [hfst]⟩
  obtain ⟨r, hr⟩ := Option.isSome_iff_exists.mp hsome
  exact ⟨r.2, by simp [getSheet, hr]⟩

lemma getSheet_none_of_not_mem {wb : Workbook} {n : String}
    (h : n ∉ wb.sheetnames) : getSheet wb n = none := by
  have hfind : wb.sheets.find? (fun e => decide (e.1 = n)) = none := by
    rw [List.find?_eq_none]
    intro e he
    simp only [decide_eq_true_eq]
    intro hfst
    exact h (by simpa [Workbook.sheetnames, hfst] using List.mem_map_of_mem Prod.fst he)
  simp [getSheet, hfind]

/-- The copied sheet is found under its target title in the result. -/
lemma getSheet_copyResult_self (wb : Workbook) (source : Worksheet) (title : String) :
    getSheet (copyResult wb source title) title = some (copiedSheet source) := by
  simp only [getSheet, copyResult]
  by_cases hc : wb.sheetnames.contains title = true
  · rw [if_pos hc, find?_append_singleton]
    · rfl
    · intro e he
      have := (List.mem_filter.mp he).2
      simpa using this
  · rw [if_neg hc, find?_append_singleton]
    · rfl
    · intro e he hfst
      have hmem : title ∈ wb.sheetnames := by
        simpa [Workbook.sheetnames, hfst] using List.mem_map_of_mem Prod.fst he
      exact not_mem_of_not_contains hc hmem

/-- Lookups of any other name pass through `copy_sheet` unchanged. -/
lemma getSheet_copyResult_other (wb : Workbook) (source : Worksheet) (title n : String)
    (h : n ≠ title) : getSheet (copyResult wb source title) n = getSheet wb n := by
  simp only [getSheet, copyResult]
  have hlast : ∀ l : List (String × Worksheet),
      (l ++ [(title, copiedSheet source)]).find? (fun e => decide (e.1 = n)) =
        l.find? (fun e => decide (e.1 = n)) := by
    intro l
    induction l with
    | nil => simp [List.find?, h, Ne.symm h]
    | cons hd rest ih =>
      by_cases hp : hd.1 = n
      · rw [List.cons_append, List.find?_cons_of_pos _ (by simp [hp]),
          List.find?_cons_of_pos _ (by simp [hp])]
      · rw [List.cons_append, List.find?_cons_of_neg _ (by simp [hp]),
          List.find?_cons_of_neg _ (by simp [hp]), ih]
  by_cases hc : wb.sheetnames.contains title = true
  · rw [if_pos hc, hlast, find?_filter_of_imp]
    intro e hpe
    have hen : e.1 = n := by simpa using hpe
    simp [hen, h]
  · rw [if_neg hc, hlast]

lemma map_fst_filter_key (l : List (String × Worksheet)) (t : String) :
    (l.filter (fun e => !(decide (e.1 = t)))).map Prod.fst
      = (l.map Prod.fst).filter (fun m => !(decide (m = t))) := by
  induction l with
  | nil => rfl
  | cons hd rest ih =>
    by_cases hp : hd.1 = t
    · rw [List.filter_cons_of_neg (by simp [hp]), List.map_cons,
        List.filter_cons_of_neg (by simp [hp])]
      exact ih
    · rw [List.filter_cons_of_pos (by simp [hp]), List.map_cons, List.map_cons,
        List.filter_cons_of_pos (by simp [hp]), ih]

/-- The sheet names after one `copy_sheet`: every sheet previously named
`title` is gone and the fresh copy sits at the end. -/
lemma copyResult_sheetnames (wb : Workbook) (source : Worksheet) (title : String) :
    (copyResult wb source title).sheetnames
      = wb.sheetnames.filter (fun m => !(decide (m = title))) ++ [title] := by
  by_cases hc : wb.sheetnames.contains title = true
  · simp only [copyResult]
    rw [if_pos hc]
    simp only [Workbook.sheetnames, List.map_append, map_fst_filter_key]
    rfl
  · simp only [copyResult]
    rw [if_neg hc]
    simp only [Workbook.sheetnames, List.map_append]
    have hall : ∀ m ∈ wb.sheets.map Prod.fst, (!(decide (m = title))) = true := by
      intro m hm
      have hne : m ≠ title := by
        intro hmt
        exact not_mem_of_not_contains hc
          (by simpa [Workbook.sheetnames, hmt] using hm)
      simp [hne]
    rw [List.filter_eq_self.mpr hall]
    rfl

/-! Lemmas following the orchestrator's copy loop. -/

lemma copyNamed_nil (wb src : Workbook) : copyNamed wb src [] = Except.ok wb := rfl

lemma copyNamed_cons (wb src : Workbook) (name : String) (rest : List String)
    (s : Worksheet) (h : getSheet src name = some s) :
    copyNamed wb src (name :: rest) = copyNamed (copyResult wb s name) src rest := by
  simp [copyNamed, h, copy_sheet_eq]


lemma contains_of_getSheet_some {wb : Workbook} {n : String} {s : Worksheet}
    (h : getSheet wb n = some s) : wb.sheetnames.contains n = true := by
  apply contains_iff_mem_names.mpr
  simp only [getSheet] at h
  cases hf : wb.sheets.find? (fun e => decide (e.1 = n)) with
  | none => rw [hf] at h; cases h
  | some e =>
    have hpred := List.find?_some hf
    have hmem : e ∈ wb.sheets := List.mem_of_find?_eq_some hf
    have hfst : e.1 = n := by simpa using hpred
    simpa [Workbook.sheetnames, hfst] using List.mem_map_of_mem Prod.fst hmem

/-! Evaluation lemmas for the orchestrator on parsed inputs. -/

lemma generate_parsed_none (template cwb : Workbook) :
    generate_output_file template (Except.ok cwb) none
      = copyNamed template cwb (sheetsToCopy cwb true) := by
  show (match copyNamed template cwb (sheetsToCopy cwb true) with
    | Except.error e => Except.error e
    | Except.ok wb1 => Except.ok wb1) = _
  cases copyNamed template cwb (sheetsToCopy cwb true) <;> rfl

lemma generate_parsed_some (template cwb pwb : Workbook) :
    generate_output_file template (Except.ok cwb) (some (Except.ok pwb))
      = match copyNamed template cwb (sheetsToCopy cwb false) with
        | Except.error e => Except.error e
        | Except.ok wb1 =>
          if pwb.sheetnames.contains "Public Company" then
            match getSheet pwb "Public Company" with
            | none => Except.error "KeyError"
            | some s => copy_sheet wb1 s "Public Company"
          else Except.ok wb1 := rfl

lemma generate_parsed_perror (template cwb : Workbook) (msg : String) :
    generate_output_file template (Except.ok cwb) (some (Except.error msg))
      = match copyNamed template cwb (sheetsToCopy cwb false) with
        | Except.error e => Except.error e
        | Except.ok _ => Except.error msg := rfl

/-! Name-uniqueness lemmas. -/

lemma copyResult_names_nodup {wb : Workbook} (source : Worksheet) (title : String)
    (hnd : wb.sheetnames.Nodup) : (copyResult wb source title).sheetnames.Nodup := by
  rw [copyResult_sheetnames]
  rw [List.nodup_append]
  refine ⟨hnd.filter _, List.nodup_singleton title, ?_⟩
  intro a ha hb
  have hne : a ≠ title := by simpa using (List.mem_filter.mp ha).2
  have heq : a = title := by simpa using hb
  exact hne heq

lemma copyResult_count_title (wb : Workbook) (source : Worksheet) (title : String) :
    (copyResult wb source title).sheetnames.count title = 1 := by
  rw [copyResult_sheetnames, List.count_append]
  have h0 : (wb.sheetnames.filter (fun m => !(decide (m = title)))).count title = 0 := by
    rw [List.count_eq_zero]
    intro hmem
    have := (List.mem_filter.mp hmem).2
    simp at this
  rw [h0]
  simp

lemma copyNamed_nodup (src : Workbook) (names : List String) :
    ∀ wb out, wb.sheetnames.Nodup → copyNamed wb src names = Except.ok out →
      out.sheetnames.Nodup := by
  induction names with
  | nil =>
    intro wb out h hrun
    rw [copyNamed] at hrun
    injection hrun with h2
    rwa [← h2]
  | cons name rest ih =>
    intro wb out h hrun
    cases hgs : getSheet src name with
    | none =>
      rw [copyNamed, hgs] at hrun
      cases hrun
    | some s =>
      rw [copyNamed_cons wb src name rest s hgs] at hrun
      exact ih (copyResult wb s name) out (copyResult_names_nodup s name h) hrun

lemma generate_nodup (template : Workbook) (consensusData : Except String Workbook)
    (profileData : Option (Except String Workbook)) (out : Workbook)
    (hnd : template.sheetnames.Nodup)
    (hrun : generate_output_file template consensusData profileData = Except.ok out) :
    out.sheetnames.Nodup := by
  cases consensusData with
  | error e =>
    rw [generate_output_file] at hrun
    cases hrun
  | ok cwb =>
    rw [generate_output_file] at hrun
    cases hcn : copyNamed template cwb (sheetsToCopy cwb profileData.isNone) with
    | error e =>
      rw [hcn] at hrun
      cases hrun
    | ok wb1 =>
      rw [hcn] at hrun
      have hnd1 : wb1.sheetnames.Nodup :=
        copyNamed_nodup cwb (sheetsToCopy cwb profileData.isNone) template wb1 hnd hcn
      cases profileData with
      | none =>
        injection hrun with h2
        rwa [← h2]
      | some pdat =>
        cases pdat with
        | error e => cases hrun
        | ok pwb =>
          dsimp only at hrun
          by_cases hpc : pwb.sheetnames.contains "Public Company" = true
          · rw [if_pos hpc] at hrun
            cases hgs : getSheet pwb "Public Company" with
            | none =>
              rw [hgs] at hrun
              cases hrun
            | some s =>
              rw [hgs] at hrun
              dsimp only at hrun
              rw [copy_sheet_eq] at hrun
              injection hrun with h2
              rw [← h2]
              exact copyResult_names_nodup s "Public Company" hnd1
          · rw [if_neg hpc] at hrun
            injection hrun with h2
            rwa [← h2]

/-! Claim theorems. -/

/-- C4: after `copy_sheet` succeeds, every cell of the source's used range
that is not a non-anchor merged placeholder reappears at the same (row,
column) position of the destination sheet with content equal to the
source's: a literal keeps its value with its `CellValue` constructor — hence
its type — intact, and a formula cell keeps its stored formula text verbatim
(`copy_sheet` copies `.value`, which under `data_only=False` is the formula
text, never a cached result). -/
theorem copy_sheet_cell_roundtrip (wb out : Workbook) (source : Worksheet) (title : String)
    (hnd : (source.cells.map Prod.fst).Nodup)
    (hrun : copy_sheet wb source title = Except.ok out)
    (p : CellRC) (c : Cell) (hmem : (p, c) ∈ source.cells)
    (hph : isMergedPlaceholder source p = false) :
    getSheet out title = some (copiedSheet source) ∧
    getCell (copiedSheet source) p = some c := by
  have heq := copy_sheet_eq wb source title
  rw [hrun] at heq
  have hout : out = copyResult wb source title := by
    injection heq
  subst hout
  exact ⟨getSheet_copyResult_self wb source title,
    getCell_copiedSheet_mem source hnd hmem hph⟩

theorem copy_sheet_cell_roundtrip_witness :
    getSheet (copyResult exTemplate exSheet "Consensus") "Consensus"
        = some (copiedSheet exSheet) ∧
      getCell (copiedSheet exSheet) ⟨1, 2⟩ = some exCellF :=
  copy_sheet_cell_roundtrip exTemplate (copyResult exTemplate exSheet "Consensus") exSheet
    "Consensus" (by decide) (by decide) ⟨1, 2⟩ exCellF (by decide) (by decide)

/-- C5: `copy_sheet` declares every merged range of the source identically in
the destination before the cell loop runs (the copied sheet's merge table
equals the source's), the write-to-placeholder error branch is unreachable
(`copy_sheet` always returns `Except.ok`, never the `AttributeError`), and
for every merged range R of the source no non-anchor position of R holds any
cell in the destination — only R's anchor can carry the value. -/
theorem copy_sheet_merge_integrity (wb : Workbook) (source : Worksheet) (title : String) :
    copy_sheet wb source title = Except.ok (copyResult wb source title) ∧
    (copiedSheet source).mergedRanges = source.mergedRanges ∧
    getSheet (copyResult wb source title) title = some (copiedSheet source) ∧
    (∀ R ∈ source.mergedRanges, ∀ p : CellRC,
      R.containsCell p = true → p ≠ R.anchor → getCell (copiedSheet source) p = none) := by
  refine ⟨copy_sheet_eq wb source title, rfl, getSheet_copyResult_self wb source title, ?_⟩
  intro R hR p hc ha
  apply getCell_copiedSheet_placeholder source
  exact List.any_eq_true.mpr ⟨R, hR, by simp [hc, ha]⟩

theorem copy_sheet_merge_integrity_witness :
    copy_sheet exTemplate exSheet "Merged"
        = Except.ok (copyResult exTemplate exSheet "Merged") ∧
      getCell (copiedSheet exSheet) ⟨2, 2⟩ = none :=
  ⟨(copy_sheet_merge_integrity exTemplate exSheet "Merged").1,
    (copy_sheet_merge_integrity exTemplate exSheet "Merged").2.2.2 exRange (by decide)
      ⟨2, 2⟩ (by decide) (by decide)⟩

/-- C6 as stated is false on the code: `copy_sheet` never clones
conditional-formatting rules (no line of src/main.py touches
`conditional_formatting`), and it contains no exception handler, so there is
no caught-and-continue path.  Concretely, copying `exSheet`, which carries
one conditional-formatting rule, yields a sheet with none. -/
theorem conditional_formatting_not_cloned :
    copy_sheet exTemplate exSheet "CF" = Except.ok (copyResult exTemplate exSheet "CF") ∧
    exSheet.conditionalFormatting = [1] ∧
    (copiedSheet exSheet).conditionalFormatting = [] := by
  exact ⟨by decide, by decide, by decide⟩

/-- C6 amended: `copy_sheet` clones the freeze-pane coordinate and the page
setup, margins and print options unconditionally (not best-effort: these
steps are not wrapped in any handler), and does not clone
conditional-formatting rules at all — the destination sheet always ends up
with an empty rule list, so no cloning failure can arise, and there is
nothing to catch. -/
theorem copy_sheet_optional_attributes (wb out : Workbook) (source : Worksheet) (title : String)
    (hrun : copy_sheet wb source title = Except.ok out) :
    getSheet out title = some (copiedSheet source) ∧
    (copiedSheet source).freezePanes = source.freezePanes ∧
    (copiedSheet source).pageSetup = source.pageSetup ∧
    (copiedSheet source).pageMargins = source.pageMargins ∧
    (copiedSheet source).printOptions = source.printOptions ∧
    (copiedSheet source).conditionalFormatting = [] := by
  have heq := copy_sheet_eq wb source title
  rw [hrun] at heq
  have hout : out = copyResult wb source title := by
    injection heq
  subst hout
  exact ⟨getSheet_copyResult_self wb source title, rfl, rfl, rfl, rfl, rfl⟩

/-- C9: after any merge run from a template whose sheet names are unique (the
real template, a valid xlsx, has unique names), the output workbook contains
no two sheets with the same name; moreover every single `copy_sheet` step —
the only operation of the run that alters the sheet list — preserves the
invariant and leaves exactly one sheet carrying the target title, because a
colliding pre-existing sheet is removed before the replacement is created
(last-write-wins). -/
theorem sheet_name_uniqueness (template : Workbook) (consensusData : Except String Workbook)
    (profileData : Option (Except String Workbook)) (out : Workbook)
    (hnd : template.sheetnames.Nodup)
    (hrun : generate_output_file template consensusData profileData = Except.ok out) :
    out.sheetnames.Nodup ∧
    (∀ (wb wb2 : Workbook) (source : Worksheet) (title : String), wb.sheetnames.Nodup →
      copy_sheet wb source title = Except.ok wb2 →
      wb2.sheetnames.Nodup ∧ wb2.sheetnames.count title = 1) := by
  refine ⟨generate_nodup template consensusData profileData out hnd hrun, ?_⟩
  intro wb wb2 source title hwb hcs
  have heq := copy_sheet_eq wb source title
  rw [hcs] at heq
  have h2 : wb2 = copyResult wb source title := by
    injection heq
  subst h2
  exact ⟨copyResult_names_nodup source title hwb, copyResult_count_title wb source title⟩

theorem sheet_name_uniqueness_witness :
    (copyResult exTemplate exSheet "Consensus").sheetnames.Nodup ∧
    (copyResult exTemplate exSheet "Consensus").sheetnames.count "Consensus" = 1 :=
  (sheet_name_uniqueness exTemplate (Except.ok exConsensusWB) none
      (copyResult exTemplate exSheet "Consensus") (by decide) (by decide)).2
    exTemplate (copyResult exTemplate exSheet "Consensus") exSheet "Consensus"
    (by decide) (by decide)

/-- C8 as universally stated fails on the code, because a merge from a
consensus upload with no "Consensus" sheet still succeeds (see C1) and its
output lacks the "Consensus" sheet, so it does not have the claimed shape
even though neither source offers "Public Company". -/
theorem output_order_fails_without_consensus_sheet :
    generate_output_file exTemplate (Except.ok exConsensusMissing) none
      = Except.ok exTemplate ∧
    exTemplate.sheetnames
      ≠ ["DCF Model", "Consensus"]
        ++ (if pcAvailable exConsensusMissing none then ["Public Company"] else []) := by
  exact ⟨by decide, by decide⟩

/-- C8 amended: for every merge that succeeds from a consensus upload that
does carry a "Consensus" sheet, the output's sheets are exactly DCF Model,
Consensus and
— when available from the governing source — Public Company, in that order;
when neither upload offers a Public Company sheet the output is exactly
{DCF Model, Consensus}.  The template is modelled per the spec as supplying
exactly the "DCF Model" sheet (hypothesis `htmpl`), so no blank default sheet
exists to remove: the output is built on the loaded template, not a fresh
workbook. -/
theorem output_sheet_order (template consensus : Workbook) (pd : Option Workbook)
    (out : Workbook)
    (htmpl : template.sheetnames = ["DCF Model"])
    (hcons : consensus.sheetnames.contains "Consensus" = true)
    (hrun : generate_output_file template (Except.ok consensus) (pd.map Except.ok)
      = Except.ok out) :
    out.sheetnames = ["DCF Model", "Consensus"]
      ++ (if pcAvailable consensus pd then ["Public Company"] else []) := by
  obtain ⟨cs, hcs⟩ := getSheet_some_of_contains hcons
  cases pd with
  | none =>
    replace hrun : generate_output_file template (Except.ok consensus) none
        = Except.ok out := hrun
    rw [generate_parsed_none] at hrun
    by_cases hpc : consensus.sheetnames.contains "Public Company" = true
    · have hstc : sheetsToCopy consensus true = ["Consensus", "Public Company"] := by
        simp [sheetsToCopy, contains_iff_mem_names.mp hcons, contains_iff_mem_names.mp hpc]
      obtain ⟨pcs, hpcs⟩ := getSheet_some_of_contains hpc
      rw [hstc, copyNamed_cons _ _ _ _ cs hcs, copyNamed_cons _ _ _ _ pcs hpcs,
        copyNamed_nil] at hrun
      have hout : out = copyResult (copyResult template cs "Consensus") pcs "Public Company" := by
        injection hrun with h2
        exact h2.symm
      subst hout
      rw [copyResult_sheetnames, copyResult_sheetnames, htmpl]
      have hpa : pcAvailable consensus none = true := hpc
      rw [hpa]
      rfl
    · have hstc : sheetsToCopy consensus true = ["Consensus"] := by
        simp [sheetsToCopy, contains_iff_mem_names.mp hcons, not_mem_of_not_contains hpc]
      rw [hstc, copyNamed_cons _ _ _ _ cs hcs, copyNamed_nil] at hrun
      have hout : out = copyResult template cs "Consensus" := by
        injection hrun with h2
        exact h2.symm
      subst hout
      rw [copyResult_sheetnames, htmpl]
      have hpa : pcAvailable consensus none = false := by
        simpa [pcAvailable] using hpc
      rw [hpa]
      rfl
  | some pwb =>
    replace hrun : generate_output_file template (Except.ok consensus)
        (some (Except.ok pwb)) = Except.ok out := hrun
    rw [generate_parsed_some] at hrun
    have hstc : sheetsToCopy consensus false = ["Consensus"] := by
      simp [sheetsToCopy, contains_iff_mem_names.mp hcons]
    rw [hstc, copyNamed_cons _ _ _ _ cs hcs, copyNamed_nil] at hrun
    dsimp only at hrun
    by_cases hpc : pwb.sheetnames.contains "Public Company" = true
    · rw [if_pos hpc] at hrun
      obtain ⟨ppc, hppc⟩ := getSheet_some_of_contains hpc
      rw [hppc] at hrun
      dsimp only at hrun
      rw [copy_sheet_eq] at hrun
      have hout : out = copyResult (copyResult template cs "Consensus") ppc "Public Company" := by
        injection hrun with h2
        exact h2.symm
      subst hout
      rw [copyResult_sheetnames, copyResult_sheetnames, htmpl]
      have hpa : pcAvailable consensus (some pwb) = true := hpc
      rw [hpa]
      rfl
    · rw [if_neg hpc] at hrun
      have hout : out = copyResult template cs "Consensus" := by
        injection hrun with h2
        exact h2.symm
      subst hout
      rw [copyResult_sheetnames, htmpl]
      have hpa : pcAvailable consensus (some pwb) = false := by
        simpa [pcAvailable] using hpc
      rw [hpa]
      rfl

theorem output_sheet_order_witness :
    (copyResult (copyResult exTemplate exSheet "Consensus") exSheetP
        "Public Company").sheetnames
      = ["DCF Model", "Consensus"]
        ++ (if pcAvailable exConsensusWB (some exProfileWB) then ["Public Company"] else []) :=
  output_sheet_order exTemplate exConsensusWB (some exProfileWB)
    (copyResult (copyResult exTemplate exSheet "Consensus") exSheetP "Public Company")
    (by decide) (by decide) (by decide)

/-- C3: selection of the "Public Company" sheet.  When a profile upload was
supplied and has a "Public Company" sheet, the output's "Public Company" is
the copy of the profile's sheet.  When no profile was supplied and the
consensus workbook has one, the output's "Public Company" is the copy of the
consensus's sheet.  When neither source offers one, the run still succeeds
and the output simply has no "Public Company" sheet.  The template is
modelled per the spec as supplying exactly "DCF Model". -/
theorem public_company_precedence (template consensus : Workbook) (pd : Option Workbook)
    (htmpl : template.sheetnames = ["DCF Model"]) :
    (∀ (pwb : Workbook) (ppc : Worksheet) (out : Workbook), pd = some pwb →
      getSheet pwb "Public Company" = some ppc →
      generate_output_file template (Except.ok consensus) (pd.map Except.ok)
        = Except.ok out →
      getSheet out "Public Company" = some (copiedSheet ppc)) ∧
    (∀ (cpc : Worksheet) (out : Workbook), pd = none →
      getSheet consensus "Public Company" = some cpc →
      generate_output_file template (Except.ok consensus) (pd.map Except.ok)
        = Except.ok out →
      getSheet out "Public Company" = some (copiedSheet cpc)) ∧
    ((∀ pwb, pd = some pwb → pwb.sheetnames.contains "Public Company" = false) →
      consensus.sheetnames.contains "Public Company" = false →
      ∃ out, generate_output_file template (Except.ok consensus) (pd.map Except.ok)
          = Except.ok out ∧ getSheet out "Public Company" = none) := by
  have htPC : getSheet template "Public Company" = none := by
    apply getSheet_none_of_not_mem
    rw [htmpl]
    decide
  have htCons : getSheet template "Consensus" = none := by
    apply getSheet_none_of_not_mem
    rw [htmpl]
    decide
  refine ⟨?_, ?_, ?_⟩
  · rintro pwb ppc out rfl hppc hrun
    replace hrun : generate_output_file template (Except.ok consensus)
        (some (Except.ok pwb)) = Except.ok out := hrun
    rw [generate_parsed_some] at hrun
    have hpc : pwb.sheetnames.contains "Public Company" = true :=
      contains_of_getSheet_some hppc
    by_cases hcons : consensus.sheetnames.contains "Consensus" = true
    · obtain ⟨cs, hcs⟩ := getSheet_some_of_contains hcons
      have hstc : sheetsToCopy consensus false = ["Consensus"] := by
        simp [sheetsToCopy, contains_iff_mem_names.mp hcons]
      rw [hstc, copyNamed_cons _ _ _ _ cs hcs, copyNamed_nil] at hrun
      dsimp only at hrun
      rw [if_pos hpc, hppc] at hrun
      dsimp only at hrun
      rw [copy_sheet_eq] at hrun
      have hout : out = copyResult (copyResult template cs "Consensus") ppc "Public Company" := by
        injection hrun with h2
        exact h2.symm
      subst hout
      exact getSheet_copyResult_self _ ppc "Public Company"
    · have hstc : sheetsToCopy consensus false = [] := by
        simp [sheetsToCopy, not_mem_of_not_contains hcons]
      rw [hstc, copyNamed_nil] at hrun
      dsimp only at hrun
      rw [if_pos hpc, hppc] at hrun
      dsimp only at hrun
      rw [copy_sheet_eq] at hrun
      have hout : out = copyResult template ppc "Public Company" := by
        injection hrun with h2
        exact h2.symm
      subst hout
      exact getSheet_copyResult_self template ppc "Public Company"
  · rintro cpc out rfl hcpc hrun
    replace hrun : generate_output_file template (Except.ok consensus) none
        = Except.ok out := hrun
    rw [generate_parsed_none] at hrun
    have hpc : consensus.sheetnames.contains "Public Company" = true :=
      contains_of_getSheet_some hcpc
    by_cases hcons : consensus.sheetnames.contains "Consensus" = true
    · obtain ⟨cs, hcs⟩ := getSheet_some_of_contains hcons
      have hstc : sheetsToCopy consensus true = ["Consensus", "Public Company"] := by
        simp [sheetsToCopy, contains_iff_mem_names.mp hcons, contains_iff_mem_names.mp hpc]
      rw [hstc, copyNamed_cons _ _ _ _ cs hcs, copyNamed_cons _ _ _ _ cpc hcpc,
        copyNamed_nil] at hrun
      have hout : out = copyResult (copyResult template cs "Consensus") cpc "Public Company" := by
        injection hrun with h2
        exact h2.symm
      subst hout
      exact getSheet_copyResult_self _ cpc "Public Company"
    · have hstc : sheetsToCopy consensus true = ["Public Company"] := by
        simp [sheetsToCopy, not_mem_of_not_contains hcons, contains_iff_mem_names.mp hpc]
      rw [hstc, copyNamed_cons _ _ _ _ cpc hcpc, copyNamed_nil] at hrun
      have hout : out = copyResult template cpc "Public Company" := by
        injection hrun with h2
        exact h2.symm
      subst hout
      exact getSheet_copyResult_self template cpc "Public Company"
  · intro hnopwb hnoc
    cases pd with
    | none =>
      rw [show (Option.map Except.ok (none : Option Workbook)) = none from rfl,
        generate_parsed_none]
      by_cases hcons : consensus.sheetnames.contains "Consensus" = true
      · obtain ⟨cs, hcs⟩ := getSheet_some_of_contains hcons
        have hstc : sheetsToCopy consensus true = ["Consensus"] := by
          simp [sheetsToCopy, contains_iff_mem_names.mp hcons, not_mem_of_contains_eq_false hnoc]
        rw [hstc, copyNamed_cons _ _ _ _ cs hcs, copyNamed_nil]
        refine ⟨copyResult template cs "Consensus", rfl, ?_⟩
        rw [getSheet_copyResult_other template cs "Consensus" "Public Company" (by decide)]
        exact htPC
      · have hstc : sheetsToCopy consensus true = [] := by
          simp [sheetsToCopy, not_mem_of_not_contains hcons, not_mem_of_contains_eq_false hnoc]
        rw [hstc, copyNamed_nil]
        exact ⟨template, rfl, htPC⟩
    | some pwb =>
      have hpwb : pwb.sheetnames.contains "Public Company" = false := hnopwb pwb rfl
      rw [show (Option.map Except.ok (some pwb)) = some (Except.ok pwb) from rfl,
        generate_parsed_some]
      by_cases hcons : consensus.sheetnames.contains "Consensus" = true
      · obtain ⟨cs, hcs⟩ := getSheet_some_of_contains hcons
        have hstc : sheetsToCopy consensus false = ["Consensus"] := by
          simp [sheetsToCopy, contains_iff_mem_names.mp hcons]
        rw [hstc, copyNamed_cons _ _ _ _ cs hcs, copyNamed_nil]
        dsimp only
        rw [if_neg (by rw [hpwb]; decide)]
        refine ⟨copyResult template cs "Consensus", rfl, ?_⟩
        rw [getSheet_copyResult_other template cs "Consensus" "Public Company" (by decide)]
        exact htPC
      · have hstc : sheetsToCopy consensus false = [] := by
          simp [sheetsToCopy, not_mem_of_not_contains hcons]
        rw [hstc, copyNamed_nil]
        dsimp only
        rw [if_neg (by rw [hpwb]; decide)]
        exact ⟨template, rfl, htPC⟩

theorem public_company_precedence_witness :
    getSheet (copyResult (copyResult exTemplate exSheet "Consensus") exSheetP
        "Public Company") "Public Company" = some (copiedSheet exSheetP) :=
  (public_company_precedence exTemplate exConsensusWB (some exProfileWB) (by decide)).1
    exProfileWB exSheetP
    (copyResult (copyResult exTemplate exSheet "Consensus") exSheetP "Public Company")
    rfl (by decide) (by decide)

theorem copy_sheet_optional_attributes_witness :
    getSheet (copyResult exTemplate exSheetP "Attrs") "Attrs" = some (copiedSheet exSheetP) ∧
    (copiedSheet exSheetP).freezePanes = exSheetP.freezePanes ∧
    (copiedSheet exSheetP).pageSetup = exSheetP.pageSetup ∧
    (copiedSheet exSheetP).pageMargins = exSheetP.pageMargins ∧
    (copiedSheet exSheetP).printOptions = exSheetP.printOptions ∧
    (copiedSheet exSheetP).conditionalFormatting = [] :=
  copy_sheet_optional_attributes exTemplate (copyResult exTemplate exSheetP "Attrs") exSheetP
    "Attrs" (by decide)

/-- C1 as stated is false on the code: a consensus upload with no "Consensus"
sheet is NOT rejected.  Lines 188-189 of src/main.py only add "Consensus" to
`to_copy` when present; nothing raises when it is absent, and the handler has
no 400-class path at all (its only `raise` is `HTTPException(500, ...)`).
Concretely, uploading a workbook whose single sheet is "Data" produces a
successful 200 response whose body has no "Consensus" sheet. -/
theorem missing_consensus_not_rejected :
    upload exTemplate (Except.ok exConsensusMissing) none = HTTPResult.ok exTemplate ∧
    getSheet exTemplate "Consensus" = none := by
  exact ⟨by decide, by decide⟩

/-- C1 amended: when the consensus upload lacks a "Consensus" sheet, the merge
completes successfully with the sheet silently skipped — the response is a
200 with an output workbook that has no "Consensus" sheet, and no 400-class
error is ever raised.  The template is modelled per the spec as supplying
exactly "DCF Model". -/
theorem missing_consensus_silently_skipped (template cwb : Workbook) (pd : Option Workbook)
    (htmpl : template.sheetnames = ["DCF Model"])
    (hcons : cwb.sheetnames.contains "Consensus" = false) :
    ∃ out, upload template (Except.ok cwb) (pd.map Except.ok) = HTTPResult.ok out ∧
      getSheet out "Consensus" = none := by
  have htCons : getSheet template "Consensus" = none := by
    apply getSheet_none_of_not_mem
    rw [htmpl]
    decide
  have hupload : ∀ out2 : Workbook,
      generate_output_file template (Except.ok cwb) (pd.map Except.ok) = Except.ok out2 →
      upload template (Except.ok cwb) (pd.map Except.ok) = HTTPResult.ok out2 := by
    intro out2 hgen
    show (match generate_output_file template (Except.ok cwb) (pd.map Except.ok) with
      | Except.ok o => HTTPResult.ok o
      | Except.error e => HTTPResult.httpError 500 e) = HTTPResult.ok out2
    rw [hgen]
  cases pd with
  | none =>
    by_cases hpc : cwb.sheetnames.contains "Public Company" = true
    · obtain ⟨pcs, hpcs⟩ := getSheet_some_of_contains hpc
      have hstc : sheetsToCopy cwb true = ["Public Company"] := by
        simp [sheetsToCopy, not_mem_of_contains_eq_false hcons, contains_iff_mem_names.mp hpc]
      have hgen : generate_output_file template (Except.ok cwb)
          ((none : Option Workbook).map Except.ok)
          = Except.ok (copyResult template pcs "Public Company") := by
        rw [show ((none : Option Workbook).map Except.ok)
            = (none : Option (Except String Workbook)) from rfl,
          generate_parsed_none, hstc, copyNamed_cons _ _ _ _ pcs hpcs, copyNamed_nil]
      refine ⟨copyResult template pcs "Public Company", hupload _ hgen, ?_⟩
      rw [getSheet_copyResult_other template pcs "Public Company" "Consensus" (by decide)]
      exact htCons
    · have hstc : sheetsToCopy cwb true = [] := by
        simp [sheetsToCopy, not_mem_of_contains_eq_false hcons, not_mem_of_not_contains hpc]
      have hgen : generate_output_file template (Except.ok cwb)
          ((none : Option Workbook).map Except.ok) = Except.ok template := by
        rw [show ((none : Option Workbook).map Except.ok)
            = (none : Option (Except String Workbook)) from rfl,
          generate_parsed_none, hstc, copyNamed_nil]
      exact ⟨template, hupload _ hgen, htCons⟩
  | some pwb =>
    have hstc : sheetsToCopy cwb false = [] := by
      simp [sheetsToCopy, not_mem_of_contains_eq_false hcons]
    by_cases hpc : pwb.sheetnames.contains "Public Company" = true
    · obtain ⟨ppc, hppc⟩ := getSheet_some_of_contains hpc
      have hgen : generate_output_file template (Except.ok cwb)
          ((some pwb).map Except.ok)
          = Except.ok (copyResult template ppc "Public Company") := by
        rw [show ((some pwb).map Except.ok) = some (Except.ok pwb) from rfl,
          generate_parsed_some, hstc, copyNamed_nil]
        dsimp only
        rw [if_pos hpc, hppc]
        dsimp only
        rw [copy_sheet_eq]
      refine ⟨copyResult template ppc "Public Company", hupload _ hgen, ?_⟩
      rw [getSheet_copyResult_other template ppc "Public Company" "Consensus" (by decide)]
      exact htCons
    · have hgen : generate_output_file template (Except.ok cwb)
          ((some pwb).map Except.ok) = Except.ok template := by
        rw [show ((some pwb).map Except.ok) = some (Except.ok pwb) from rfl,
          generate_parsed_some, hstc, copyNamed_nil]
        dsimp only
        rw [if_neg hpc]
      exact ⟨template, hupload _ hgen, htCons⟩

theorem missing_consensus_silently_skipped_witness :
    ∃ out, upload exTemplate (Except.ok exProfileWB)
        ((none : Option Workbook).map Except.ok) = HTTPResult.ok out ∧
      getSheet out "Consensus" = none :=
  missing_consensus_silently_skipped exTemplate exProfileWB none (by decide) (by decide)

/-- C2 as stated is false on the code: an upload whose bytes fail to parse is
surfaced with HTTP status 500, the same class as internal errors, because the
handler wraps everything in `except Exception: raise HTTPException(500, ...)`
(src/main.py lines 80-81).  It is handled — not a crash — but it is a
500-class response, which the claim forbids. -/
theorem parse_error_surfaces_as_500 :
    upload exTemplate (Except.error "File is not a zip file") none
      = HTTPResult.httpError 500 "File is not a zip file" := rfl

/-- C2 amended: a parse failure of either upload is caught and surfaced as an
HTTP 500 error carrying the parse exception's message — never an unhandled
crash, but also not distinguishable by status class from an internal server
error, since the handler maps every exception to 500. -/
theorem parse_errors_mapped_to_500 (template : Workbook) (msg : String)
    (pd : Option (Except String Workbook)) :
    upload template (Except.error msg) pd = HTTPResult.httpError 500 msg ∧
    (∀ cwb : Workbook, upload template (Except.ok cwb) (some (Except.error msg))
        = HTTPResult.httpError 500 msg) := by
  constructor
  · rfl
  · intro cwb
    have hgen : generate_output_file template (Except.ok cwb) (some (Except.error msg))
        = Except.error msg := by
      rw [generate_parsed_perror]
      by_cases hcons : cwb.sheetnames.contains "Consensus" = true
      · obtain ⟨cs, hcs⟩ := getSheet_some_of_contains hcons
        have hstc : sheetsToCopy cwb false = ["Consensus"] := by
          simp [sheetsToCopy, contains_iff_mem_names.mp hcons]
        rw [hstc, copyNamed_cons _ _ _ _ cs hcs, copyNamed_nil]
      · have hstc : sheetsToCopy cwb false = [] := by
          simp [sheetsToCopy, not_mem_of_not_contains hcons]
        rw [hstc, copyNamed_nil]
    show (match generate_output_file template (Except.ok cwb) (some (Except.error msg)) with
      | Except.ok o => HTTPResult.ok o
      | Except.error e => HTTPResult.httpError 500 e) = HTTPResult.httpError 500 msg
    rw [hgen]

/-- C7 is violated by the code on its success path: the two staged uploads
are indeed removed by the `finally` block on every exit, but the generated
output file — a `NamedTemporaryFile(delete=False)` created at the save step —
is never deleted by any line of src/main.py, even though
`generate_output_file`'s own docstring says the caller should delete it
after sending.  Every request that reaches the save step leaves its output
file behind; only a request failing before the save leaves nothing. -/
theorem output_tempfile_never_deleted :
    requestLeftoverFiles true false "tmp1u2v3w.xlsx" = ["tmp1u2v3w.xlsx"] ∧
    requestLeftoverFiles true true "tmp1u2v3w.xlsx" = ["tmp1u2v3w.xlsx"] ∧
    requestLeftoverFiles false true "tmp1u2v3w.xlsx" = [] := by
  exact ⟨by decide, by decide, by decide⟩

/-- C10 as stated is false on the code: the staging filenames are the fixed
literals `temp_consensus.xlsx` and `temp_profile.xlsx` (src/main.py lines
59 and 65), so two distinct concurrent requests use exactly the same paths
and one request's `finally` cleanup can delete the other's still-in-use
file. -/
theorem staging_paths_shared_between_requests :
    (0 : Nat) ≠ 1 ∧ stagingPaths 0 true = stagingPaths 1 true ∧
    "temp_consensus.xlsx" ∈ stagingPaths 0 true ∧
    "temp_consensus.xlsx" ∈ stagingPaths 1 true := by
  exact ⟨by decide, rfl, by decide, by decide⟩

/-- C10 amended: the staging paths are constant — identical for every request
— rather than request-scoped and unique; uniqueness across concurrent
requests fails in the strongest possible way. -/
theorem staging_paths_request_independent (r1 r2 : Nat) (b : Bool) :
    stagingPaths r1 b = stagingPaths r2 b := rfl

end DCFMerge
